import Mathlib

/-!
Verification of the FxRunner process supervisor
(src/core/modules/FxRunner/index.js) against its specification.

The JavaScript module is shallowly embedded below: pure helpers become Lean
functions, the mutable supervisor object becomes an explicit state record with
transition functions, asynchronous suspension points (`await sleep`) split the
corresponding operation into phases, and side effects on external collaborators
are collected into an explicit effect trace. Machine integers are modelled as
Nat/Int; JavaScript string truthiness is modelled as nonemptiness and the
`false | number` timestamp fields as `Option Nat` with numeric truthiness.
-/

namespace FxRunner

/-! ## Command encoder (sendCommand, src lines 443-476) -/

/-- Word character in the sense of the JavaScript regex `\w`: ASCII letters,
digits and underscore. -/
def isWordChar (c : Char) : Bool :=
  c.isAlpha || c.isDigit || c = '_'

/-- Test of the JavaScript regex `^\w+$`: nonempty and word characters only. -/
def isWordString (s : String) : Bool :=
  !s.data.isEmpty && s.data.all isWordChar

/-- First pass of sanitizeArgString: `x.replaceAll(/"/g, '＂')`. -/
def replaceQuoteChar (c : Char) : Char :=
  if c = '"' then Char.ofNat 0xFF02 else c

/-- Second pass of sanitizeArgString: `.replaceAll(/\n/g, ' ')`. -/
def replaceNewlineChar (c : Char) : Char :=
  if c = '\n' then ' ' else c

/-- Embedding of `sanitizeArgString` (src line 453): replace every literal
double quote by U+FF02, then every newline by a space. Both patterns are a
single character replaced by a single character, so each `replaceAll` is a
character map. -/
def sanitizeArgString (x : String) : String :=
  String.mk ((x.data.map replaceQuoteChar).map replaceNewlineChar)

/-- JSON values, as far as they can travel through `JSON.stringify` in the
sendCommand argument position (plain data: null, booleans, integer numbers,
strings, arrays, objects with ordered keys). -/
inductive Json where
  | jnull : Json
  | jbool : Bool → Json
  | jnum : Int → Json
  | jstr : String → Json
  | jarr : List Json → Json
  | jobj : List (String × Json) → Json
deriving Repr

/-- Hexadecimal digit for JSON \uXXXX escapes. -/
def hexDigit (n : Nat) : Char :=
  if n < 10 then Char.ofNat (48 + n) else Char.ofNat (87 + n)

/-- Four-digit lowercase hexadecimal rendering used by JSON.stringify for
control characters. -/
def hex4 (n : Nat) : String :=
  String.mk [hexDigit (n / 4096 % 16), hexDigit (n / 256 % 16),
    hexDigit (n / 16 % 16), hexDigit (n % 16)]

/-- Escaping of a single character inside a JSON string literal, following
JSON.stringify. -/
def jsonEscapeChar (c : Char) : String :=
  if c = '"' then "\\\""
  else if c = '\\' then "\\\\"
  else if c = '\n' then "\\n"
  else if c = '\t' then "\\t"
  else if c = '\r' then "\\r"
  else if c = Char.ofNat 8 then "\\b"
  else if c = Char.ofNat 12 then "\\f"
  else if c.toNat < 32 then "\\u" ++ hex4 c.toNat
  else String.mk [c]

/-- JSON string literal rendering, following JSON.stringify. -/
def jsonQuote (s : String) : String :=
  "\"" ++ String.join (s.data.map jsonEscapeChar) ++ "\""

mutual

/-- Embedding of `JSON.stringify` on the plain-data values of `Json`. -/
def jsonStringify : Json → String
  | Json.jnull => "null"
  | Json.jbool true => "true"
  | Json.jbool false => "false"
  | Json.jnum n => toString n
  | Json.jstr s => jsonQuote s
  | Json.jarr xs => "[" ++ jsonStringifyList xs ++ "]"
  | Json.jobj fs => "\x7b" ++ jsonStringifyFields fs ++ "\x7d"

/-- Comma-separated serialization of JSON array elements. -/
def jsonStringifyList : List Json → String
  | [] => ""
  | [x] => jsonStringify x
  | x :: y :: xs => jsonStringify x ++ "," ++ jsonStringifyList (y :: xs)

/-- Comma-separated serialization of JSON object fields. -/
def jsonStringifyFields : List (String × Json) → String
  | [] => ""
  | [(k, v)] => jsonQuote k ++ ":" ++ jsonStringify v
  | (k, v) :: f :: fs => jsonQuote k ++ ":" ++ jsonStringify v ++ "," ++ jsonStringifyFields (f :: fs)

end

/-- JavaScript value in a sendCommand argument position, classified the way
the `typeof` dispatch in src lines 456-471 classifies it: a string, a non-null
object, a number that satisfies `Number.isInteger`, a number that does not, or
anything else (boolean, null, undefined, ...). -/
inductive JsArg where
  | str : String → JsArg
  | obj : Json → JsArg
  | int : Int → JsArg
  | nonIntNum : JsArg
  | other : JsArg
deriving Repr

/-- Arguments of the three accepted kinds (string, structured object, integer). -/
def goodArg : JsArg → Bool
  | JsArg.str _ => true
  | JsArg.obj _ => true
  | JsArg.int _ => true
  | JsArg.nonIntNum => false
  | JsArg.other => false

/-- Embedding of one iteration of the argument loop in sendCommand
(src lines 455-472): the text appended to rawInput for one argument, or the
error thrown for an invalid argument. -/
def encodeArgPiece : JsArg → Except String String
  | JsArg.str s =>
    if s.data.isEmpty then Except.ok (" \"\"")
    else if isWordString s then Except.ok (" " ++ s)
    else Except.ok (" \"" ++ sanitizeArgString s ++ "\"")
  | JsArg.obj j => Except.ok (" \"" ++ sanitizeArgString (jsonStringify j) ++ "\"")
  | JsArg.int n => Except.ok (" " ++ toString n)
  | JsArg.nonIntNum => Except.error ("arg expected to be string or object")
  | JsArg.other => Except.error ("arg expected to be string or object")

/-- Embedding of the whole argument loop: the concatenation of the per-argument
pieces, failing at the first invalid argument exactly as the loop throws. -/
def encodeArgs : List JsArg → Except String String
  | [] => Except.ok ("")
  | a :: rest =>
    match encodeArgPiece a with
    | Except.error e => Except.error e
    | Except.ok piece =>
      match encodeArgs rest with
      | Except.error e => Except.error e
      | Except.ok restText => Except.ok (piece ++ restText)

/-- Embedding of the validation and formatting part of sendCommand
(src lines 445-472): name validation, then rawInput assembly. -/
def buildRawInput (cmdName : String) (cmdArgs : List JsArg) : Except String String :=
  if cmdName.data.isEmpty then Except.error ("cmdName is empty")
  else if !(isWordString cmdName) then Except.error ("invalid cmdName string")
  else
    match encodeArgs cmdArgs with
    | Except.error e => Except.error e
    | Except.ok argsText => Except.ok (sanitizeArgString cmdName ++ argsText)

/-! ## Data model: lifecycle history and supervisor state -/

/-- Lifecycle timestamp set of one history record (src lines 229-234). In the
source each field holds `false` until stamped with `now()` (epoch seconds);
this is modelled as `Option Nat`, with JavaScript truthiness given by
`tsTruthy`. -/
structure Timestamps where
  start : Option Nat
  kill : Option Nat
  exit : Option Nat
  close : Option Nat
deriving Repr, DecidableEq

/-- JavaScript truthiness of a timestamp field value (`false` and `0` are
falsy, any other number is truthy). -/
def tsTruthy : Option Nat → Bool
  | none => false
  | some n => n != 0

/-- One lifecycle record of the history (src lines 227-235). -/
structure HistoryEntry where
  pid : String
  timestamps : Timestamps
deriving Repr, DecidableEq

/-- Configuration snapshot read by the supervisor (txConfig.server fields used
by FxRunner). -/
structure ServerConfig where
  dataPath : String
  cfgPath : String
  shutdownNoticeDelayMs : Nat
  restartSpawnDelayMs : Nat
deriving Repr, DecidableEq

/-- Mutable supervisor state (constructor, src lines 52-59). The child handle
is represented by its OS pid. -/
structure FxRunnerState where
  fxChild : Option Nat
  restartSpawnDelayOverride : Nat
  history : List HistoryEntry
  lastKillRequest : Nat
  fxServerHost : Option String
  currentMutex : Option String
deriving Repr, DecidableEq

/-- State set by the constructor (src lines 52-59). -/
def initialState : FxRunnerState :=
  { fxChild := none, restartSpawnDelayOverride := 0, history := [],
    lastKillRequest := 0, fxServerHost := none, currentMutex := none }

/-- Calls made to external collaborators and other observable actions, kept as
an explicit trace. -/
inductive Effect where
  | resetToken
  | logConfigWarning (warnings : String)
  | resetMonitorStats
  | bufferPlayerlist (mutex : String)
  | announceSpawning
  | processSpawn (command : String)
  | logFxserverBoot (pid : String)
  | pushRefreshStatus
  | sendEventShuttingDown (delayMs : Nat) (author : String)
  | announceShutdown (messageType : String)
  | sleepMs (ms : Nat)
  | killSignal (pid : Nat)
  | resourcesServerStop
  | playerlistServerStop (mutex : Option String)
  | logServerClose (reason : String)
  | logAdminCommand (author : String) (command : String)
  | logSystemCommand (command : String)
deriving Repr, DecidableEq

/-! ## Status projector (getStatus, src lines 517-545) -/

/-- Key order of `Object.keys` on a timestamps object: insertion order of the
literal at src lines 229-234. -/
def tsKeys : List String := [("start"), ("kill"), ("exit"), ("close")]

/-- Field lookup by key name. -/
def tsGet (t : Timestamps) (k : String) : Option Nat :=
  if k = "start" then t.start
  else if k = "kill" then t.kill
  else if k = "exit" then t.exit
  else if k = "close" then t.close
  else none

/-- Embedding of `Object.keys(x.timestamps).filter((k) => !curr.timestamps[k])`:
the names of the fields of `t` that are falsy, in key order. (At src line 525
the keys are taken from the second-to-last record, but both records have the
same four keys.) -/
def pendingOf (t : Timestamps) : List String :=
  tsKeys.filter (fun k => !(tsTruthy (tsGet t k)))

/-- Status text computed for a last record whose `start` is truthy
(src lines 531-544). -/
def currStatus (curr : HistoryEntry) : String :=
  if tsTruthy curr.timestamps.kill then
    let pending := pendingOf curr.timestamps
    if pending.isEmpty then "killed"
    else "kill pending: " ++ String.intercalate (", ") pending
  else if tsTruthy curr.timestamps.exit && !(tsTruthy curr.timestamps.close) then "closing"
  else if tsTruthy curr.timestamps.exit && tsTruthy curr.timestamps.close then "closed"
  else "spawned"

/-- Message of the exception thrown at src line 522. -/
def getStatusErrorMsg : String :=
  "This should NOT happen. Let\x27s see how long people will take to find this..."

/-- Embedding of `getStatus` (src lines 517-545): a pure projection of the
history; `Except.error` models the thrown exception. The source branches on
the last record, accessed here as the head of the reversed history. -/
def getStatus (history : List HistoryEntry) : Except String String :=
  match history.reverse with
  | [] => Except.ok ("not started")
  | curr :: rest =>
    if tsTruthy curr.timestamps.start then Except.ok (currStatus curr)
    else
      match rest with
      | [] => Except.error getStatusErrorMsg
      | _last :: _ =>
        let pending := pendingOf curr.timestamps
        if pending.isEmpty then Except.ok ("spawn ready")
        else Except.ok ("spawn awaiting last: " ++ String.intercalate (", ") pending)

/-! ## sendRawCommand and sendCommand (src lines 443-502) -/

/-- Embedding of `sendRawCommand` (src lines 485-502), past its type checks:
writes the line to the child's stdin when a child exists. The outcome of the
`stdin.write` call is an input (`Except.error` models a thrown write error,
which the source catches and converts to `false` with no log). -/
def sendRawCommand (fxChild : Option Nat) (writeOutcome : Except Unit Bool)
    (command : String) (author : Option String) : Bool × List Effect :=
  match fxChild with
  | none => (false, [])
  | some _ =>
    match writeOutcome with
    | Except.error _ => (false, [])
    | Except.ok success =>
      match author with
      | some a => (success, [Effect.logAdminCommand a command])
      | none => (success, [Effect.logSystemCommand command])

/-- Embedding of `sendCommand` (src lines 443-476): returns `false` when there
is no child (src line 444, before any validation), then validates and formats
via `buildRawInput` and delegates to `sendRawCommand`. `Except.error` models a
thrown exception. -/
def sendCommand (fxChild : Option Nat) (writeOutcome : Except Unit Bool)
    (cmdName : String) (cmdArgs : List JsArg) (author : Option String) :
    Except String (Bool × List Effect) :=
  match fxChild with
  | none => Except.ok ((false, []))
  | some pid =>
    match buildRawInput cmdName cmdArgs with
    | Except.error e => Except.error e
    | Except.ok rawInput =>
      Except.ok (sendRawCommand (some pid) writeOutcome rawInput author)

/-! ## spawnServer (src lines 136-304) -/

/-- Result object of the external config validator collaborator
(`validateFixServerConfig`); `errors` and `warnings` are JavaScript-truthy
when nonempty. -/
structure ConfigValidationResult where
  errors : String
  warnings : String
  connectEndpoint : String
deriving Repr, DecidableEq

/-- Outcome of awaiting the external validator: a result object, or a thrown
exception with its message. -/
inductive ValidatorOutcome where
  | result (r : ConfigValidationResult)
  | thrown (message : String)
deriving Repr, DecidableEq

/-- Outcome of `spawnServer`: a returned error message, a normal `null`
return, or a thrown exception. -/
inductive SpawnOutcome where
  | errMsg (msg : String)
  | ok
  | thrown (msg : String)
deriving Repr, DecidableEq

/-- Fixed message header prepended to the validator error text at src
line 170. -/
def spawnErrorHeader : String :=
  "**Unable to start the server due to error(s) in your config file(s):**\n"

/-- Embedding of `spawnServer` (src lines 136-304). Inputs stand for the
values observed at the awaited or external calls: `mutex` is the token from
`genMutex()`, `validator` the settled result of `validateFixServerConfig`,
`command` the launch command assembled by `setupVariables` (whose sanity check
at src lines 150-158 can never fail, since `setupVariables` always assigns
both fields), `spawnPid` the pid reported by the OS `spawn` call (absent
models `undefined`), and `tNow` the `now()` epoch-second clock. Listener
attachment is modelled by the separate `handleClose` and `handleExit`
transitions below. -/
def spawnServer (cfg : ServerConfig) (s : FxRunnerState) (announce : Bool)
    (mutex : String) (validator : ValidatorOutcome) (command : String)
    (spawnPid : Option Nat) (tNow : Nat) :
    SpawnOutcome × FxRunnerState × List Effect :=
  if s.fxChild.isSome then
    (SpawnOutcome.errMsg ("The server is already started."), s, [])
  else
    let s1 := { s with currentMutex := some mutex }
    let effs0 := [Effect.resetToken]
    if cfg.dataPath.data.isEmpty || cfg.cfgPath.data.isEmpty then
      (SpawnOutcome.errMsg ("Cannot start the server with missing configuration (serverDataPath || cfgPath)."), s1, effs0)
    else
      match validator with
      | ValidatorOutcome.thrown message =>
        (SpawnOutcome.errMsg ("server.cfg error: " ++ message), s1, effs0)
      | ValidatorOutcome.result r =>
        if !r.errors.data.isEmpty then
          (SpawnOutcome.errMsg (spawnErrorHeader ++ r.errors), s1, effs0)
        else
          let warnEffs := if !r.warnings.data.isEmpty then [Effect.logConfigWarning r.warnings] else []
          let s2 := { s1 with fxServerHost := some r.connectEndpoint }
          let effs1 := effs0 ++ warnEffs
            ++ [Effect.resetMonitorStats, Effect.bufferPlayerlist mutex]
            ++ (if announce then [Effect.announceSpawning] else [])
            ++ [Effect.processSpawn command]
          match spawnPid with
          | none =>
            (SpawnOutcome.thrown ("Executon of \"" ++ command ++ "\" failed."), s2, effs1)
          | some pid =>
            let entry : HistoryEntry :=
              { pid := toString pid,
                timestamps := { start := some tNow, kill := none, exit := none, close := none } }
            (SpawnOutcome.ok,
             { s2 with fxChild := some pid, history := s2.history ++ [entry] },
             effs1 ++ [Effect.logFxserverBoot (toString pid), Effect.pushRefreshStatus])

/-- Write the `close` timestamp into the record at a closure-captured history
index (src line 251). -/
def setCloseAt : List HistoryEntry → Nat → Nat → List HistoryEntry
  | [], _, _ => []
  | e :: rest, 0, t => { e with timestamps := { e.timestamps with close := some t } } :: rest
  | e :: rest, Nat.succ i, t => e :: setCloseAt rest i t

/-- Write the `exit` timestamp into the record at a closure-captured history
index (src line 264). -/
def setExitAt : List HistoryEntry → Nat → Nat → List HistoryEntry
  | [], _, _ => []
  | e :: rest, 0, t => { e with timestamps := { e.timestamps with exit := some t } } :: rest
  | e :: rest, Nat.succ i, t => e :: setExitAt rest i t

/-- Embedding of the `close` event handler attached at src lines 243-253:
stamps `close` on the record captured by `historyIndex`; the supervisor state
is otherwise untouched. -/
def handleClose (s : FxRunnerState) (historyIndex : Nat) (t : Nat) : FxRunnerState :=
  { s with history := setCloseAt s.history historyIndex t }

/-- Embedding of the `exit` event handler attached at src lines 261-271:
stamps `exit` on the record captured by `historyIndex`. -/
def handleExit (s : FxRunnerState) (historyIndex : Nat) (t : Nat) : FxRunnerState :=
  { s with history := setExitAt s.history historyIndex t }

/-! ## killServer (src lines 343-395) -/

/-- Outcome of the part of `killServer` before the `await sleep` (src lines
345-376): either the debounce rejection, or the updated state, the emitted
notice effects, and the length of the sleep. -/
inductive KillPhase1 where
  | rejected (msg : String)
  | proceed (s : FxRunnerState) (effs : List Effect) (sleepLen : Nat)
deriving Repr, DecidableEq

/-- Embedding of `killServer` up to and including the computation of the sleep
length (src lines 345-376): the debounce check against `lastKillRequest`, the
shutdown-notice event, and the announcement. `tMs` is the `Date.now()`
millisecond clock. -/
def killServerPhase1 (cfg : ServerConfig) (s : FxRunnerState) (tMs : Nat)
    (author : Option String) (isRestarting : Bool) : KillPhase1 :=
  if (tMs : Int) - (s.lastKillRequest : Int) < (cfg.shutdownNoticeDelayMs : Int) then
    KillPhase1.rejected ("Restart already in progress.")
  else
    let messageType := if isRestarting then "restarting" else "stopping"
    KillPhase1.proceed { s with lastKillRequest := tMs }
      [Effect.sendEventShuttingDown cfg.shutdownNoticeDelayMs (author.getD ("txAdmin")),
       Effect.announceShutdown messageType]
      (max cfg.shutdownNoticeDelayMs 250)

/-- Write the `kill` timestamp into the last history record (src line 382). -/
def stampKillOnLast : List HistoryEntry → Nat → List HistoryEntry
  | [], _ => []
  | [e], t => [{ e with timestamps := { e.timestamps with kill := some t } }]
  | e :: f :: rest, t => e :: stampKillOnLast (f :: rest) t

/-- Message returned by the catch block of `killServer` (src line 389). -/
def killCatchMsg : String :=
  "Couldn\x27t kill the server. Perhaps What Is Dead May Never Die."

/-- Embedding of `killServer` after the `await sleep` resumes (src lines
379-394): run against the state observed at that point. If a child is still
present it is signalled, the handle cleared and the last record stamped; the
cleanup collaborators then run. When the history is empty while a child is
present, the indexing at src line 382 throws after the signal was sent and the
handle cleared; the catch block clears the handle again and returns the
failure message, skipping the cleanup calls. `tSec` is the `now()` clock. -/
def killServerPhase2 (s : FxRunnerState) (tSec : Nat) (reasonString : String) :
    Option String × FxRunnerState × List Effect :=
  match s.fxChild with
  | none =>
    (none, s,
     [Effect.resourcesServerStop, Effect.playerlistServerStop s.currentMutex,
      Effect.logServerClose reasonString])
  | some pid =>
    if s.history.isEmpty then
      (some killCatchMsg, { s with fxChild := none }, [Effect.killSignal pid])
    else
      (none,
       { s with fxChild := none, history := stampKillOnLast s.history tSec },
       [Effect.killSignal pid, Effect.resourcesServerStop,
        Effect.playerlistServerStop s.currentMutex, Effect.logServerClose reasonString])

/-- Sequential composition of the two phases of `killServer` (src lines
343-395), for runs without interleaved state changes during the sleep. -/
def killServer (cfg : ServerConfig) (s : FxRunnerState) (tMs tSec : Nat)
    (reason author : Option String) (isRestarting : Bool) :
    Option String × FxRunnerState × List Effect :=
  match killServerPhase1 cfg s tMs author isRestarting with
  | KillPhase1.rejected msg => (some msg, s, [])
  | KillPhase1.proceed s1 effs sleepLen =>
    let r := killServerPhase2 s1 tSec (reason.getD ("no reason provided"))
    (r.1, r.2.1, effs ++ [Effect.sleepMs sleepLen] ++ r.2.2)

/-! ## restartServer (src lines 312-334) -/

/-- Pre-spawn delay of a restart (src lines 319-324): the one-shot override
when truthy, the configured delay otherwise. -/
def restartDelayMs (cfg : ServerConfig) (s : FxRunnerState) : Nat :=
  if s.restartSpawnDelayOverride != 0 then s.restartSpawnDelayOverride
  else cfg.restartSpawnDelayMs

/-- Embedding of `restartServer` (src lines 312-334): kill, then sleep for
the chosen delay, then spawn (with `announce` undefined, hence falsy). A
thrown exception from `spawnServer` is caught and converted to the generic
failure message. -/
def restartServer (cfg : ServerConfig) (s : FxRunnerState) (tMs tSec : Nat)
    (reason author : Option String) (mutex : String) (validator : ValidatorOutcome)
    (command : String) (spawnPid : Option Nat) (tSpawn : Nat) :
    Option String × FxRunnerState × List Effect :=
  let k := killServer cfg s tMs tSec reason author true
  match k.1 with
  | some e => (some e, k.2.1, k.2.2)
  | none =>
    let d := restartDelayMs cfg k.2.1
    let sp := spawnServer cfg k.2.1 false mutex validator command spawnPid tSpawn
    let effs := k.2.2 ++ [Effect.sleepMs d] ++ sp.2.2
    match sp.1 with
    | SpawnOutcome.errMsg m => (some m, sp.2.1, effs)
    | SpawnOutcome.ok => (none, sp.2.1, effs)
    | SpawnOutcome.thrown _msg => (some ("Couldn\x27t restart the server."), sp.2.1, effs)

/-! ## Blackhole stream-event logger (src lines 25-36) -/

/-- Rate-limit window constant (src line 27). -/
def blackHoleSpillMaxInterval : Nat := 5000

/-- Module-level state of the blackhole logger (src line 26). -/
structure BlackHoleLog where
  lastBlackHoleSpewTime : Nat
deriving Repr, DecidableEq

/-- Observable outcome of one blackhole invocation. -/
structure BlackHoleOutcome where
  state : BlackHoleLog
  logged : Bool
  threwReferenceError : Bool
deriving Repr, DecidableEq

/-- Embedding of `chanEventBlackHole` (src lines 28-36). When the window test
passes, the diagnostic log is emitted and the code then executes
`lastLogTime = currentTime` (src line 34): `lastLogTime` is an undeclared
identifier (the declared state variable is `lastBlackHoleSpewTime`), so in the
strict mode of an ES module this assignment throws a ReferenceError and the
declared variable is never updated. -/
def chanEventBlackHole (s : BlackHoleLog) (currentTime : Nat) : BlackHoleOutcome :=
  if s.lastBlackHoleSpewTime + blackHoleSpillMaxInterval < currentTime then
    { state := s, logged := true, threwReferenceError := true }
  else
    { state := s, logged := false, threwReferenceError := false }

/-! ## Step relation over supervisor states

Each constructor is one state-mutating operation or attached event handler of
the module; operations that do not touch the supervisor state (`sendCommand`,
`sendRawCommand`, `getStatus`, `getUptime`, the `disconnect` and `error`
handlers) have no constructor, and `restartServer` is the composition of kill,
sleep and spawn steps. The positivity hypotheses on the clock inputs reflect
that `now()` returns a positive epoch-second count. -/

inductive Step (cfg : ServerConfig) : FxRunnerState → FxRunnerState → Prop where
  | spawn (s : FxRunnerState) (announce : Bool) (mutex : String)
      (validator : ValidatorOutcome) (command : String) (spawnPid : Option Nat)
      (t : Nat) (ht : 0 < t) :
      Step cfg s (spawnServer cfg s announce mutex validator command spawnPid t).2.1
  | killNotice (s : FxRunnerState) (tMs : Nat) (author : Option String)
      (isRestarting : Bool) (s' : FxRunnerState) (effs : List Effect) (sleepLen : Nat)
      (h : killServerPhase1 cfg s tMs author isRestarting = KillPhase1.proceed s' effs sleepLen) :
      Step cfg s s'
  | killTerm (s : FxRunnerState) (tSec : Nat) (reasonString : String) (ht : 0 < tSec) :
      Step cfg s (killServerPhase2 s tSec reasonString).2.1
  | closeEvent (s : FxRunnerState) (historyIndex t : Nat)
      (hi : historyIndex < s.history.length) (ht : 0 < t) :
      Step cfg s (handleClose s historyIndex t)
  | exitEvent (s : FxRunnerState) (historyIndex t : Nat)
      (hi : historyIndex < s.history.length) (ht : 0 < t) :
      Step cfg s (handleExit s historyIndex t)

/-- States reachable from the constructor state through the module's
operations and event handlers. -/
inductive Reachable (cfg : ServerConfig) : FxRunnerState → Prop where
  | init : Reachable cfg initialState
  | step {s s' : FxRunnerState} : Reachable cfg s → Step cfg s s' → Reachable cfg s'

/-! ## Spec-side rendering of the command line (claim C1)

These definitions follow the words of the specification, to be compared with
the source-translated `buildRawInput` above. -/

/-- Character replacement as worded by the spec: every literal double quote
replaced by U+FF02 and every newline replaced by a single space. -/
def specSanitizeChar (c : Char) : Char :=
  if c = '"' then Char.ofNat 0xFF02 else if c = '\n' then ' ' else c

/-- One-pass sanitization as worded by the spec. -/
def specSanitize (s : String) : String :=
  String.mk (s.data.map specSanitizeChar)

/-- Per-argument text as worded by the spec: the two-character literal for an
empty string; a word-only string verbatim; any other string wrapped in double
quotes after sanitization; an object serialized to JSON then quoted and
sanitized the same way; an integer as its decimal text. The two invalid kinds
are outside the spec clause and get a junk value never used under its
hypotheses. -/
def specEncodeArg : JsArg → String
  | JsArg.str s =>
    if s.data.isEmpty then "\"\""
    else if isWordString s then s
    else "\"" ++ specSanitize s ++ "\""
  | JsArg.obj j => "\"" ++ specSanitize (jsonStringify j) ++ "\""
  | JsArg.int n => toString n
  | JsArg.nonIntNum => ""
  | JsArg.other => ""

/-- Argument part of the line as worded by the spec: for each argument in
order, a single space followed by its rendering. -/
def specArgsText : List JsArg → String
  | [] => ""
  | a :: rest => " " ++ specEncodeArg a ++ specArgsText rest

/-- Whole line as worded by the spec: the name verbatim, then the arguments. -/
def specLine (cmdName : String) (args : List JsArg) : String :=
  cmdName ++ specArgsText args

/-! ## Concrete fixtures used by witnesses and counterexamples -/

/-- Configuration with no shutdown-notice delay. -/
def cfg0 : ServerConfig :=
  { dataPath := "d", cfgPath := "c", shutdownNoticeDelayMs := 0, restartSpawnDelayMs := 100 }

/-- Configuration with a 5000 ms shutdown-notice delay. -/
def cfgD : ServerConfig :=
  { dataPath := "d", cfgPath := "c", shutdownNoticeDelayMs := 5000, restartSpawnDelayMs := 100 }

/-- Freshly spawned record. -/
def rec0 : HistoryEntry :=
  { pid := "42", timestamps := { start := some 10, kill := none, exit := none, close := none } }

/-- State with a live child process and a one-shot restart-delay override. -/
def sRun : FxRunnerState :=
  { fxChild := some 42, restartSpawnDelayOverride := 500, history := [rec0],
    lastKillRequest := 0, fxServerHost := none, currentMutex := some ("m0") }

/-- State with a live child process and no override. -/
def sLive : FxRunnerState :=
  { fxChild := some 42, restartSpawnDelayOverride := 0, history := [rec0],
    lastKillRequest := 0, fxServerHost := none, currentMutex := some ("m0") }

/-- Validator outcome with no errors and no warnings. -/
def vOk : ValidatorOutcome :=
  ValidatorOutcome.result { errors := "", warnings := "", connectEndpoint := ("e") }

/-- Validator result reporting an error text. -/
def vErrResult : ConfigValidationResult :=
  { errors := ("bad cfg"), warnings := "", connectEndpoint := "" }

/-- Validator outcome reporting an error text. -/
def vErr : ValidatorOutcome := ValidatorOutcome.result vErrResult

/-- Validator result reporting only a warning text. -/
def vWarnResult : ConfigValidationResult :=
  { errors := "", warnings := ("careful"), connectEndpoint := ("e") }

/-- Validator outcome reporting only a warning text. -/
def vWarn : ValidatorOutcome := ValidatorOutcome.result vWarnResult

/-! ## Monotonicity predicates for the history invariants (claims C8, C10) -/

/-- A timestamp field may go from absent to set, never back. -/
def tsSetOnce (a b : Option Nat) : Prop := a.isSome = true → b.isSome = true

/-- One history record evolves monotonically: the process identifier is fixed
and each timestamp field is only ever set, never cleared. -/
def entryMono (a b : HistoryEntry) : Prop :=
  a.pid = b.pid
  ∧ tsSetOnce a.timestamps.start b.timestamps.start
  ∧ tsSetOnce a.timestamps.kill b.timestamps.kill
  ∧ tsSetOnce a.timestamps.exit b.timestamps.exit
  ∧ tsSetOnce a.timestamps.close b.timestamps.close

/-- The history only grows by appending: existing positions persist and evolve
monotonically, and any newly appended record already has its start timestamp
set. -/
def historyMono (h h' : List HistoryEntry) : Prop :=
  h.length ≤ h'.length
  ∧ (∀ (i : Nat) (a b : HistoryEntry), h[i]? = some a → h'[i]? = some b → entryMono a b)
  ∧ (∀ (i : Nat) (b : HistoryEntry), h.length ≤ i → h'[i]? = some b →
      b.timestamps.start.isSome = true)

/-- Every record of the history carries a positive start timestamp. -/
def startsSet (h : List HistoryEntry) : Prop :=
  ∀ e ∈ h, ∃ n, e.timestamps.start = some n ∧ 0 < n

/-! # Theorems -/

/-! ## Helper lemmas on strings and the sanitizer -/

theorem strAppendAssoc (a b c : String) : a ++ b ++ c = a ++ (b ++ c) := by
  apply String.ext
  simp [String.data_append, List.append_assoc]

theorem sanitizeChar_eq_specChar (c : Char) :
    replaceNewlineChar (replaceQuoteChar c) = specSanitizeChar c := by
  unfold replaceNewlineChar replaceQuoteChar specSanitizeChar
  by_cases h : c = '"'
  · subst h; decide
  · by_cases h2 : c = '\n'
    · subst h2; decide
    · simp [h, h2]

theorem sanitizeArgString_eq_spec (s : String) : sanitizeArgString s = specSanitize s := by
  unfold sanitizeArgString specSanitize
  rw [List.map_map]
  have h : (replaceNewlineChar ∘ replaceQuoteChar) = specSanitizeChar :=
    funext sanitizeChar_eq_specChar
  rw [h]

theorem wordChar_fixed (c : Char) (h : isWordChar c = true) :
    replaceNewlineChar (replaceQuoteChar c) = c := by
  have h1 : c ≠ '"' := by intro e; subst e; simp [isWordChar] at h
  have h2 : c ≠ '\n' := by intro e; subst e; simp [isWordChar] at h
  unfold replaceQuoteChar replaceNewlineChar
  simp [h1, h2]

theorem wordList_map_fixed (l : List Char) (h : l.all isWordChar = true) :
    (l.map replaceQuoteChar).map replaceNewlineChar = l := by
  induction l with
  | nil => rfl
  | cons c rest ih =>
    simp only [List.all_cons, Bool.and_eq_true] at h
    simp only [List.map_cons]
    rw [wordChar_fixed c h.1, ih h.2]

theorem sanitize_word_fixed (s : String) (h : isWordString s = true) :
    sanitizeArgString s = s := by
  unfold isWordString at h
  simp only [Bool.and_eq_true] at h
  cases s with
  | mk l =>
    unfold sanitizeArgString
    simp only
    rw [wordList_map_fixed l h.2]

theorem quoteWrapEq (x : String) : " \"" ++ x ++ "\"" = " " ++ ("\"" ++ x ++ "\"") := by
  apply String.ext
  simp [String.data_append, List.append_assoc]

theorem encodeArgPiece_of_good (a : JsArg) (h : goodArg a = true) :
    encodeArgPiece a = Except.ok (" " ++ specEncodeArg a) := by
  cases a with
  | str s =>
    unfold encodeArgPiece specEncodeArg
    by_cases he : s.data.isEmpty
    · simp only [he, if_true]; rfl
    · by_cases hw : isWordString s
      · simp [he, hw]
      · simp only [he, hw, if_false, Bool.false_eq_true]
        rw [sanitizeArgString_eq_spec, quoteWrapEq]
  | obj j =>
    show Except.ok (" \"" ++ sanitizeArgString (jsonStringify j) ++ "\"")
        = Except.ok (" " ++ ("\"" ++ specSanitize (jsonStringify j) ++ "\""))
    rw [sanitizeArgString_eq_spec, quoteWrapEq]
  | int n => rfl
  | nonIntNum => simp [goodArg] at h
  | other => simp [goodArg] at h

theorem encodeArgs_of_good (args : List JsArg) (h : ∀ a ∈ args, goodArg a = true) :
    encodeArgs args = Except.ok (specArgsText args) := by
  induction args with
  | nil => rfl
  | cons a rest ih =>
    have ha : goodArg a = true := h a (List.mem_cons_self a rest)
    have hrest : ∀ b ∈ rest, goodArg b = true := fun b hb => h b (List.mem_cons_of_mem a hb)
    unfold encodeArgs
    rw [encodeArgPiece_of_good a ha, ih hrest]
    rfl

theorem encodeArgs_error_of_bad (args : List JsArg) (h : ∃ a ∈ args, goodArg a = false) :
    ∃ e, encodeArgs args = Except.error e := by
  induction args with
  | nil => obtain ⟨a, ha, _⟩ := h; simp at ha
  | cons a rest ih =>
    obtain ⟨b, hb, hbad⟩ := h
    rcases List.mem_cons.mp hb with hba | hbr
    · subst hba
      cases b with
      | str s => simp [goodArg] at hbad
      | obj j => simp [goodArg] at hbad
      | int n => simp [goodArg] at hbad
      | nonIntNum => exact ⟨_, rfl⟩
      | other => exact ⟨_, rfl⟩
    · obtain ⟨e, he⟩ := ih ⟨b, hbr, hbad⟩
      cases hp : encodeArgPiece a with
      | error e2 => exact ⟨e2, by unfold encodeArgs; rw [hp]⟩
      | ok piece => exact ⟨e, by unfold encodeArgs; rw [hp, he]⟩

/-! ## Claim C1 -/

/-- Claim C1: for every valid command name (nonempty, word characters only)
and every argument list of the three accepted kinds, the line sendCommand
builds is exactly the one the spec describes (`specLine`): the name verbatim,
then for each argument a single space followed by its rendering — the
two-character literal for an empty string, a word-only string verbatim, any
other string double-quoted with quotes replaced by U+FF02 and newlines by
spaces, an object JSON-serialized then quoted and sanitized the same way, an
integer as unquoted decimal text. The four example encodings of the spec are
also verified. -/
theorem sendCommand_builds_spec_line :
    (∀ (cmdName : String) (args : List JsArg), isWordString cmdName = true →
      (∀ a ∈ args, goodArg a = true) →
      buildRawInput cmdName args = Except.ok (specLine cmdName args))
    ∧ buildRawInput ("test") [JsArg.str ("hello world")] = Except.ok ("test \"hello world\"")
    ∧ buildRawInput ("test") [JsArg.str ("")] = Except.ok ("test \"\"")
    ∧ buildRawInput ("test") [JsArg.str ("a\"b")] = Except.ok ("test \"a＂b\"")
    ∧ buildRawInput ("x") [JsArg.obj (Json.jobj [(("a"), Json.jnum 1)])]
        = Except.ok ("x \"\x7b＂a＂:1\x7d\"") := by
  refine ⟨?_, by rfl, by rfl, by rfl, by rfl⟩
  intro cmdName args hname hargs
  have hne : cmdName.data.isEmpty = false := by
    unfold isWordString at hname
    simp only [Bool.and_eq_true, Bool.not_eq_true'] at hname
    exact hname.1
  unfold buildRawInput
  rw [hne, encodeArgs_of_good args hargs]
  simp only [Bool.false_eq_true, if_false, hname, Bool.not_true, specLine,
    sanitize_word_fixed cmdName hname]

theorem sendCommand_builds_spec_line_witness :
    buildRawInput ("tick") [JsArg.str ("ab cd"), JsArg.int 3]
      = Except.ok (specLine ("tick") [JsArg.str ("ab cd"), JsArg.int 3]) :=
  sendCommand_builds_spec_line.1 ("tick") [JsArg.str ("ab cd"), JsArg.int 3]
    (by rfl) (by decide)

/-! ## Claim C7 -/

/-- Claim C7 (amended): when a child process exists, an empty or non-word
command name, or any argument that is not a string, structured object or
integer number, makes sendCommand throw synchronously; but when no child
process exists, sendCommand returns false before any validation, so no error
is raised. -/
theorem sendCommand_validation_with_child :
    ∀ (pid : Nat) (writeOutcome : Except Unit Bool) (cmdName : String)
      (args : List JsArg) (author : Option String),
      (isWordString cmdName = false →
        ∃ e, sendCommand (some pid) writeOutcome cmdName args author = Except.error e)
      ∧ ((∃ a ∈ args, goodArg a = false) →
        ∃ e, sendCommand (some pid) writeOutcome cmdName args author = Except.error e) := by
  intro pid writeOutcome cmdName args author
  constructor
  · intro hbad
    by_cases he : cmdName.data.isEmpty
    · exact ⟨_, by unfold sendCommand buildRawInput; rw [he]; rfl⟩
    · refine ⟨("invalid cmdName string"), ?_⟩
      unfold sendCommand buildRawInput
      simp [he, hbad]
  · intro hbad
    by_cases he : cmdName.data.isEmpty
    · exact ⟨_, by unfold sendCommand buildRawInput; rw [he]; rfl⟩
    · by_cases hw : isWordString cmdName
      · obtain ⟨e, hee⟩ := encodeArgs_error_of_bad args hbad
        refine ⟨e, ?_⟩
        unfold sendCommand buildRawInput
        simp [he, hw, hee]
      · refine ⟨("invalid cmdName string"), ?_⟩
        unfold sendCommand buildRawInput
        simp [he, hw]

theorem sendCommand_validation_with_child_witness :
    (∃ e, sendCommand (some 42) (Except.ok true) ("") [] none = Except.error e)
    ∧ (∃ e, sendCommand (some 42) (Except.ok true) ("good") [JsArg.other] none
        = Except.error e) :=
  ⟨(sendCommand_validation_with_child 42 (Except.ok true) ("") [] none).1 (by rfl),
   (sendCommand_validation_with_child 42 (Except.ok true) ("good") [JsArg.other] none).2
     ⟨JsArg.other, List.mem_cons_self JsArg.other [], rfl⟩⟩

/-- Claim C7 counterexample: with no child process, sendCommand with an empty
(invalid) command name returns false instead of raising the InvalidCommandName
error, contradicting the clause that errors are raised regardless of whether a
child process currently exists. -/
theorem sendCommand_no_child_skips_validation :
    sendCommand none (Except.ok true) ("") [] none = Except.ok ((false, []))
    ∧ ∀ e, sendCommand none (Except.ok true) ("") [] none ≠ Except.error e := by
  refine ⟨rfl, ?_⟩
  intro e h
  rw [show sendCommand none (Except.ok true) ("") [] none = Except.ok ((false, [])) from rfl] at h
  exact absurd h (by simp)

/-! ## Claim C9 -/

/-- Claim C9 (code bug): the blackhole handler changes no supervisor state,
but its rate limiter is broken — the window update at src line 34 assigns to
the undeclared identifier `lastLogTime` instead of `lastBlackHoleSpewTime`, so
two events inside the same 5-second window (here at 6000 ms and 6001 ms with
the window anchor at 0) both emit the diagnostic log, and the first invocation
throws a ReferenceError in strict mode; the claimed at-most-one-log-per-window
property fails. -/
theorem chanEventBlackHole_rate_limit_broken :
    (chanEventBlackHole { lastBlackHoleSpewTime := 0 } 6000).logged = true
    ∧ (chanEventBlackHole { lastBlackHoleSpewTime := 0 } 6000).state
        = { lastBlackHoleSpewTime := 0 }
    ∧ (chanEventBlackHole
        ((chanEventBlackHole { lastBlackHoleSpewTime := 0 } 6000).state) 6001).logged = true
    ∧ (chanEventBlackHole { lastBlackHoleSpewTime := 0 } 6000).threwReferenceError = true := by
  refine ⟨rfl, rfl, rfl, rfl⟩

/-! ## Claim C2 -/

theorem pendingOf_eval (t : Timestamps) :
    pendingOf t =
      (if tsTruthy t.start then ([] : List String) else [("start")])
        ++ (if tsTruthy t.kill then [] else [("kill")])
        ++ (if tsTruthy t.exit then [] else [("exit")])
        ++ (if tsTruthy t.close then [] else [("close")]) := by
  have h1 : tsGet t ("start") = t.start := rfl
  have h2 : tsGet t ("kill") = t.kill := rfl
  have h3 : tsGet t ("exit") = t.exit := rfl
  have h4 : tsGet t ("close") = t.close := rfl
  unfold pendingOf tsKeys
  rw [List.filter_cons, List.filter_cons, List.filter_cons, List.filter_cons, List.filter_nil]
  simp only [h1, h2, h3, h4]
  cases tsTruthy t.start <;> cases tsTruthy t.kill <;> cases tsTruthy t.exit
    <;> cases tsTruthy t.close <;> simp

theorem getStatus_last (h : List HistoryEntry) (e : HistoryEntry)
    (hl : h.getLast? = some e) (hs : tsTruthy e.timestamps.start = true) :
    getStatus h = Except.ok (currStatus e) := by
  unfold getStatus
  cases hr : h.reverse with
  | nil =>
    exfalso
    have hh := List.head?_reverse h
    rw [hr, hl] at hh
    simp at hh
  | cons c rest =>
    have hc : c = e := by
      have hh := List.head?_reverse h
      rw [hr, hl] at hh
      simpa using hh
    subst hc
    simp [hs]

/-- Claim C2: the status projection is a pure function of the history — an
empty history yields the not-started label; a last record with `start` set and
`kill` absent yields closed / closing / spawned according to `exit` and
`close`; a last record with `kill` set yields the kill-pending label listing
the still-absent fields when `exit` or `close` is absent, and the killed label
when all four fields are set; and in particular a record with only `start` and
`kill` set yields the label listing exit and close. -/
theorem getStatus_projection :
    getStatus [] = Except.ok ("not started")
    ∧ (∀ (h : List HistoryEntry) (e : HistoryEntry), h.getLast? = some e →
        tsTruthy e.timestamps.start = true →
        ((tsTruthy e.timestamps.kill = false →
            (tsTruthy e.timestamps.exit = true → tsTruthy e.timestamps.close = true →
              getStatus h = Except.ok ("closed"))
            ∧ (tsTruthy e.timestamps.exit = true → tsTruthy e.timestamps.close = false →
              getStatus h = Except.ok ("closing"))
            ∧ (tsTruthy e.timestamps.exit = false → tsTruthy e.timestamps.close = false →
              getStatus h = Except.ok ("spawned")))
          ∧ (tsTruthy e.timestamps.kill = true →
            ((tsTruthy e.timestamps.exit = false ∨ tsTruthy e.timestamps.close = false) →
              getStatus h = Except.ok ("kill pending: " ++ String.intercalate (", ")
                ((if tsTruthy e.timestamps.exit then [] else [("exit")])
                  ++ (if tsTruthy e.timestamps.close then [] else [("close")]))))
            ∧ (tsTruthy e.timestamps.exit = true → tsTruthy e.timestamps.close = true →
              getStatus h = Except.ok ("killed")))))
    ∧ (∀ (h : List HistoryEntry) (e : HistoryEntry), h.getLast? = some e →
        tsTruthy e.timestamps.start = true → tsTruthy e.timestamps.kill = true →
        tsTruthy e.timestamps.exit = false → tsTruthy e.timestamps.close = false →
        getStatus h = Except.ok ("kill pending: exit, close")) := by
  refine ⟨rfl, ?_, ?_⟩
  · intro h e hl hs
    rw [getStatus_last h e hl hs]
    constructor
    · intro hk
      refine ⟨?_, ?_, ?_⟩ <;> intro hx hc <;> simp [currStatus, hk, hx, hc]
    · intro hk
      refine ⟨?_, ?_⟩
      · intro hpend
        have hmain : currStatus e = "kill pending: " ++ String.intercalate (", ")
            ((if tsTruthy e.timestamps.exit then [] else [("exit")])
              ++ (if tsTruthy e.timestamps.close then [] else [("close")])) := by
          unfold currStatus
          simp only [pendingOf_eval, hs, hk, if_true]
          rcases hpend with hx | hc
          · simp only [hx]
            cases hcc : tsTruthy e.timestamps.close <;> simp
          · simp only [hc]
            cases hxx : tsTruthy e.timestamps.exit <;> simp
        rw [hmain]
      · intro hx hc
        simp [currStatus, pendingOf_eval, hk, hs, hx, hc]
  · intro h e hl hs hk hx hc
    rw [getStatus_last h e hl hs]
    have : currStatus e = "kill pending: " ++ String.intercalate (", ") [("exit"), ("close")] := by
      unfold currStatus
      rw [pendingOf_eval, hs, hk, hx, hc]
      simp
    rw [this]
    rfl

/-! ## Claim C3 -/

theorem killServerPhase2_lastKillRequest (s : FxRunnerState) (tSec : Nat)
    (reasonString : String) :
    ((killServerPhase2 s tSec reasonString).2.1).lastKillRequest = s.lastKillRequest := by
  unfold killServerPhase2
  cases hc : s.fxChild with
  | none => rfl
  | some pid =>
    by_cases hh : s.history.isEmpty <;> simp [hh]

/-- Claim C3: a second killServer invocation strictly less than the configured
shutdown-notice delay after a previously accepted kill request returns the
rejection message, leaves the state exactly as it was (child handle, history,
kill timestamps, last-kill-request all untouched) and produces no effects
(no shutdown notice, no announcement, no signal, no cleanup). -/
theorem killServer_debounce_no_side_effects :
    ∀ (cfg : ServerConfig) (s0 s1 : FxRunnerState) (res1 : Option String)
      (effs1 : List Effect) (t1 tSec1 t2 tSec2 : Nat) (r1 a1 r2 a2 : Option String)
      (ir1 ir2 : Bool),
      (cfg.shutdownNoticeDelayMs : Int) ≤ (t1 : Int) - (s0.lastKillRequest : Int) →
      (t2 : Int) - (t1 : Int) < (cfg.shutdownNoticeDelayMs : Int) →
      killServer cfg s0 t1 tSec1 r1 a1 ir1 = (res1, s1, effs1) →
      killServer cfg s1 t2 tSec2 r2 a2 ir2
        = (some ("Restart already in progress."), s1, []) := by
  intro cfg s0 s1 res1 effs1 t1 tSec1 t2 tSec2 r1 a1 r2 a2 ir1 ir2 h1 h2 hk
  have hcond1 : ¬((t1 : Int) - (s0.lastKillRequest : Int) < (cfg.shutdownNoticeDelayMs : Int)) :=
    not_lt.mpr h1
  have e1 : killServerPhase1 cfg s0 t1 a1 ir1
      = KillPhase1.proceed { s0 with lastKillRequest := t1 }
          [Effect.sendEventShuttingDown cfg.shutdownNoticeDelayMs (a1.getD ("txAdmin")),
           Effect.announceShutdown (if ir1 then "restarting" else "stopping")]
          (max cfg.shutdownNoticeDelayMs 250) := by
    unfold killServerPhase1
    rw [if_neg hcond1]
  have hs1 : s1.lastKillRequest = t1 := by
    unfold killServer at hk
    rw [e1] at hk
    simp only at hk
    have := congrArg (fun p => p.2.1) hk
    simp only at this
    rw [← this, killServerPhase2_lastKillRequest]
  have hcond2 : (t2 : Int) - (s1.lastKillRequest : Int) < (cfg.shutdownNoticeDelayMs : Int) := by
    rw [hs1]; exact h2
  unfold killServer killServerPhase1
  rw [if_pos hcond2]

theorem killServer_debounce_no_side_effects_witness :
    killServer cfgD ((killServer cfgD sLive 100000 20 none none false).2.1) 100001 21
        none none false
      = (some ("Restart already in progress."),
         (killServer cfgD sLive 100000 20 none none false).2.1, []) :=
  killServer_debounce_no_side_effects cfgD sLive
    ((killServer cfgD sLive 100000 20 none none false).2.1)
    ((killServer cfgD sLive 100000 20 none none false).1)
    ((killServer cfgD sLive 100000 20 none none false).2.2)
    100000 20 100001 21 none none none none false false
    (by decide) (by decide) rfl

/-! ## Claim C4 -/

theorem stampKillOnLast_append (init : List HistoryEntry) (e : HistoryEntry) (t : Nat) :
    stampKillOnLast (init ++ [e]) t
      = init ++ [{ e with timestamps := { e.timestamps with kill := some t } }] := by
  induction init with
  | nil => rfl
  | cons a rest ih =>
    cases rest with
    | nil => rfl
    | cons b rest2 =>
      show a :: stampKillOnLast ((b :: rest2) ++ [e]) t = _
      rw [ih]
      rfl

/-- Claim C4: an accepted killServer invocation emits the shutdown notice and
the announcement and then waits exactly max(configured shutdown-notice delay,
250 ms); at resumption, if and only if a child handle is still present it
sends the termination signal, clears the handle and stamps the kill timestamp
on the last history record before running the cleanup collaborators and
returning null; with no child handle present it skips those three steps but
still runs the cleanup collaborators and returns null. -/
theorem killServer_wait_and_terminate :
    ∀ (cfg : ServerConfig) (s : FxRunnerState) (tMs : Nat) (author : Option String)
      (isRestarting : Bool) (s1 : FxRunnerState) (effs : List Effect) (sleepLen : Nat),
      killServerPhase1 cfg s tMs author isRestarting = KillPhase1.proceed s1 effs sleepLen →
      sleepLen = max cfg.shutdownNoticeDelayMs 250
      ∧ effs = [Effect.sendEventShuttingDown cfg.shutdownNoticeDelayMs (author.getD ("txAdmin")),
          Effect.announceShutdown (if isRestarting then "restarting" else "stopping")]
      ∧ (∀ (sMid : FxRunnerState) (tSec : Nat) (reasonString : String),
          (sMid.fxChild = none →
            killServerPhase2 sMid tSec reasonString
              = (none, sMid,
                 [Effect.resourcesServerStop, Effect.playerlistServerStop sMid.currentMutex,
                  Effect.logServerClose reasonString]))
          ∧ (∀ (pid : Nat) (init : List HistoryEntry) (e : HistoryEntry),
              sMid.fxChild = some pid → sMid.history = init ++ [e] →
              killServerPhase2 sMid tSec reasonString
                = (none,
                   { sMid with
                     fxChild := none,
                     history := init
                       ++ [{ e with timestamps := { e.timestamps with kill := some tSec } }] },
                   [Effect.killSignal pid, Effect.resourcesServerStop,
                    Effect.playerlistServerStop sMid.currentMutex,
                    Effect.logServerClose reasonString]))) := by
  intro cfg s tMs author isRestarting s1 effs sleepLen h
  unfold killServerPhase1 at h
  split at h
  · exact absurd h (by simp)
  · refine ⟨?_, ?_, ?_⟩
    · exact (KillPhase1.proceed.injEq _ _ _ _ _ _ |>.mp h).2.2.symm
    · exact (KillPhase1.proceed.injEq _ _ _ _ _ _ |>.mp h).2.1.symm
    · intro sMid tSec reasonString
      constructor
      · intro hnone
        unfold killServerPhase2
        rw [hnone]
      · intro pid init e hsome hhist
        unfold killServerPhase2
        rw [hsome, hhist]
        have hne : ((init ++ [e] : List HistoryEntry).isEmpty) = false := by
          cases init <;> rfl
        rw [hne]
        simp only [Bool.false_eq_true, if_false, stampKillOnLast_append]

theorem killServer_wait_and_terminate_witness :
    (max cfgD.shutdownNoticeDelayMs 250 = max cfgD.shutdownNoticeDelayMs 250
      ∧ [Effect.sendEventShuttingDown cfgD.shutdownNoticeDelayMs ("txAdmin"),
          Effect.announceShutdown ("stopping")]
        = [Effect.sendEventShuttingDown cfgD.shutdownNoticeDelayMs
            ((none : Option String).getD ("txAdmin")),
           Effect.announceShutdown (if false then "restarting" else "stopping")]
      ∧ True)
    ∧ killServerPhase2 sLive 20 ("no reason provided")
        = (none,
           { sLive with
             fxChild := none,
             history := []
               ++ [{ rec0 with timestamps := { rec0.timestamps with kill := some 20 } }] },
           [Effect.killSignal 42, Effect.resourcesServerStop,
            Effect.playerlistServerStop sLive.currentMutex,
            Effect.logServerClose ("no reason provided")]) := by
  have hmain := killServer_wait_and_terminate cfgD sLive 100000 none false
    { sLive with lastKillRequest := 100000 }
    [Effect.sendEventShuttingDown cfgD.shutdownNoticeDelayMs ("txAdmin"),
     Effect.announceShutdown ("stopping")]
    (max cfgD.shutdownNoticeDelayMs 250)
    (by unfold killServerPhase1; rw [if_neg (by decide)]; rfl)
  refine ⟨⟨rfl, ?_, trivial⟩, ?_⟩
  · exact hmain.2.1
  · exact ((hmain.2.2 sLive 20 ("no reason provided")).2) 42 [] rec0 rfl rfl

theorem getStatus_projection_witness :
    getStatus [{ pid := ("1"), timestamps := { start := some 5, kill := some 6, exit := none, close := none } }]
      = Except.ok ("kill pending: exit, close") :=
  getStatus_projection.2.2 _ _ rfl rfl rfl rfl rfl

/-! ## Claim C5 -/

/-- Claim C5 counterexample: with a validator error text of "bad cfg", spawn
returns the text embedded in a fixed header message, not the validator's error
text unmodified. -/
theorem spawn_error_text_not_verbatim :
    (spawnServer cfg0 initialState true ("m1") vErr ("fx") (some 43) 25).1
      = SpawnOutcome.errMsg (spawnErrorHeader ++ ("bad cfg"))
    ∧ (spawnServer cfg0 initialState true ("m1") vErr ("fx") (some 43) 25).1
      ≠ SpawnOutcome.errMsg ("bad cfg") := by
  refine ⟨rfl, ?_⟩
  intro h
  rw [show (spawnServer cfg0 initialState true ("m1") vErr ("fx") (some 43) 25).1
      = SpawnOutcome.errMsg (spawnErrorHeader ++ ("bad cfg")) from rfl] at h
  have : spawnErrorHeader ++ ("bad cfg") = "bad cfg" := SpawnOutcome.errMsg.inj h
  exact absurd this (by decide)

/-- Claim C5 (amended): with a configured idle supervisor, a validator error
makes spawn abort before any process creation — the process-spawn step is
never reached, the history is unchanged and no child handle appears — and
return the validator's error text embedded verbatim after the fixed header
`spawnErrorHeader`; a validator result with only warnings is logged and spawn
proceeds to the process-creation step. -/
theorem spawn_validator_gate :
    ∀ (cfg : ServerConfig) (s : FxRunnerState) (announce : Bool) (mutex command : String)
      (r : ConfigValidationResult) (spawnPid : Option Nat) (t : Nat),
      s.fxChild = none → cfg.dataPath.data.isEmpty = false →
      cfg.cfgPath.data.isEmpty = false →
      (r.errors.data.isEmpty = false →
        (spawnServer cfg s announce mutex (ValidatorOutcome.result r) command spawnPid t).1
            = SpawnOutcome.errMsg (spawnErrorHeader ++ r.errors)
        ∧ (spawnServer cfg s announce mutex (ValidatorOutcome.result r) command spawnPid t).2.1.history
            = s.history
        ∧ (spawnServer cfg s announce mutex (ValidatorOutcome.result r) command spawnPid t).2.1.fxChild
            = none
        ∧ ∀ c, Effect.processSpawn c
            ∉ (spawnServer cfg s announce mutex (ValidatorOutcome.result r) command spawnPid t).2.2)
      ∧ (r.errors.data.isEmpty = true → r.warnings.data.isEmpty = false →
        Effect.logConfigWarning r.warnings
            ∈ (spawnServer cfg s announce mutex (ValidatorOutcome.result r) command spawnPid t).2.2
        ∧ Effect.processSpawn command
            ∈ (spawnServer cfg s announce mutex (ValidatorOutcome.result r) command spawnPid t).2.2) := by
  intro cfg s announce mutex command r spawnPid t hchild hdata hcfg
  have hsome : s.fxChild.isSome = false := by rw [hchild]; rfl
  constructor
  · intro herr
    have heq : spawnServer cfg s announce mutex (ValidatorOutcome.result r) command spawnPid t
        = (SpawnOutcome.errMsg (spawnErrorHeader ++ r.errors),
           { s with currentMutex := some mutex }, [Effect.resetToken]) := by
      unfold spawnServer
      simp only [hsome, Bool.false_eq_true, if_false, hdata, hcfg, Bool.or_self, herr,
        Bool.not_false, if_true]
    rw [heq]
    refine ⟨rfl, rfl, hchild, ?_⟩
    intro c
    simp
  · intro herr hwarn
    have heq : (spawnServer cfg s announce mutex (ValidatorOutcome.result r) command
          spawnPid t).2.2
        = [Effect.resetToken] ++ [Effect.logConfigWarning r.warnings]
          ++ [Effect.resetMonitorStats, Effect.bufferPlayerlist mutex]
          ++ (if announce then [Effect.announceSpawning] else [])
          ++ [Effect.processSpawn command]
          ++ (match spawnPid with
              | none => []
              | some pid => [Effect.logFxserverBoot (toString pid), Effect.pushRefreshStatus]) := by
      unfold spawnServer
      simp only [hsome, Bool.false_eq_true, if_false, hdata, hcfg, Bool.or_self, herr,
        hwarn, Bool.not_false, Bool.not_true, if_true]
      cases spawnPid <;> simp
    rw [heq]
    cases spawnPid <;> cases announce <;> simp

theorem spawn_validator_gate_witness :
    ((spawnServer cfg0 initialState false ("m1") vErr ("fx") (some 43) 25).1
        = SpawnOutcome.errMsg (spawnErrorHeader ++ vErrResult.errors)
      ∧ (spawnServer cfg0 initialState false ("m1") vErr ("fx") (some 43) 25).2.1.history
        = initialState.history
      ∧ (spawnServer cfg0 initialState false ("m1") vErr ("fx") (some 43) 25).2.1.fxChild
        = none
      ∧ ∀ c, Effect.processSpawn c
        ∉ (spawnServer cfg0 initialState false ("m1") vErr ("fx") (some 43) 25).2.2)
    ∧ (Effect.logConfigWarning vWarnResult.warnings
        ∈ (spawnServer cfg0 initialState false ("m1") vWarn ("fx") (some 43) 25).2.2
      ∧ Effect.processSpawn ("fx")
        ∈ (spawnServer cfg0 initialState false ("m1") vWarn ("fx") (some 43) 25).2.2) :=
  ⟨(spawn_validator_gate cfg0 initialState false ("m1") ("fx") vErrResult (some 43) 25
      rfl rfl rfl).1 rfl,
   (spawn_validator_gate cfg0 initialState false ("m1") ("fx") vWarnResult (some 43) 25
      rfl rfl rfl).2 rfl rfl⟩

/-! ## Claim C6 -/

theorem killServerPhase2_preserves_override (s : FxRunnerState) (tSec : Nat)
    (reasonString : String) :
    ((killServerPhase2 s tSec reasonString).2.1).restartSpawnDelayOverride
      = s.restartSpawnDelayOverride := by
  unfold killServerPhase2
  cases hc : s.fxChild with
  | none => rfl
  | some pid => by_cases hh : s.history.isEmpty <;> simp [hh]

theorem killServer_eq (cfg : ServerConfig) (s : FxRunnerState) (tMs tSec : Nat)
    (reason author : Option String) (isRestarting : Bool) :
    killServer cfg s tMs tSec reason author isRestarting
      = if (tMs : Int) - (s.lastKillRequest : Int) < (cfg.shutdownNoticeDelayMs : Int) then
          (some ("Restart already in progress."), s, [])
        else
          ((killServerPhase2 { s with lastKillRequest := tMs } tSec
              (reason.getD ("no reason provided"))).1,
           (killServerPhase2 { s with lastKillRequest := tMs } tSec
              (reason.getD ("no reason provided"))).2.1,
           [Effect.sendEventShuttingDown cfg.shutdownNoticeDelayMs (author.getD ("txAdmin")),
            Effect.announceShutdown (if isRestarting then "restarting" else "stopping")]
             ++ [Effect.sleepMs (max cfg.shutdownNoticeDelayMs 250)]
             ++ (killServerPhase2 { s with lastKillRequest := tMs } tSec
                  (reason.getD ("no reason provided"))).2.2) := by
  unfold killServer killServerPhase1
  by_cases hc : (tMs : Int) - (s.lastKillRequest : Int) < (cfg.shutdownNoticeDelayMs : Int)
  · simp only [if_pos hc]
  · simp only [if_neg hc]

theorem killServer_preserves_override (cfg : ServerConfig) (s : FxRunnerState)
    (tMs tSec : Nat) (reason author : Option String) (isRestarting : Bool) :
    ((killServer cfg s tMs tSec reason author isRestarting).2.1).restartSpawnDelayOverride
      = s.restartSpawnDelayOverride := by
  rw [killServer_eq]
  split
  · rfl
  · exact killServerPhase2_preserves_override _ _ _

theorem spawnServer_preserves_override (cfg : ServerConfig) (s : FxRunnerState)
    (announce : Bool) (mutex : String) (validator : ValidatorOutcome) (command : String)
    (spawnPid : Option Nat) (t : Nat) :
    ((spawnServer cfg s announce mutex validator command spawnPid t).2.1).restartSpawnDelayOverride
      = s.restartSpawnDelayOverride := by
  unfold spawnServer
  repeat' split
  all_goals rfl

theorem restartServer_eq (cfg : ServerConfig) (s : FxRunnerState) (tMs tSec : Nat)
    (reason author : Option String) (mutex : String) (validator : ValidatorOutcome)
    (command : String) (spawnPid : Option Nat) (tSpawn : Nat) :
    restartServer cfg s tMs tSec reason author mutex validator command spawnPid tSpawn
      = match (killServer cfg s tMs tSec reason author true).1 with
        | some e =>
          (some e, (killServer cfg s tMs tSec reason author true).2.1,
           (killServer cfg s tMs tSec reason author true).2.2)
        | none =>
          match (spawnServer cfg (killServer cfg s tMs tSec reason author true).2.1 false
              mutex validator command spawnPid tSpawn).1 with
          | SpawnOutcome.errMsg m =>
            (some m,
             (spawnServer cfg (killServer cfg s tMs tSec reason author true).2.1 false
                mutex validator command spawnPid tSpawn).2.1,
             (killServer cfg s tMs tSec reason author true).2.2
               ++ [Effect.sleepMs (restartDelayMs cfg
                    (killServer cfg s tMs tSec reason author true).2.1)]
               ++ (spawnServer cfg (killServer cfg s tMs tSec reason author true).2.1 false
                    mutex validator command spawnPid tSpawn).2.2)
          | SpawnOutcome.ok =>
            (none,
             (spawnServer cfg (killServer cfg s tMs tSec reason author true).2.1 false
                mutex validator command spawnPid tSpawn).2.1,
             (killServer cfg s tMs tSec reason author true).2.2
               ++ [Effect.sleepMs (restartDelayMs cfg
                    (killServer cfg s tMs tSec reason author true).2.1)]
               ++ (spawnServer cfg (killServer cfg s tMs tSec reason author true).2.1 false
                    mutex validator command spawnPid tSpawn).2.2)
          | SpawnOutcome.thrown _msg =>
            (some ("Couldn\x27t restart the server."),
             (spawnServer cfg (killServer cfg s tMs tSec reason author true).2.1 false
                mutex validator command spawnPid tSpawn).2.1,
             (killServer cfg s tMs tSec reason author true).2.2
               ++ [Effect.sleepMs (restartDelayMs cfg
                    (killServer cfg s tMs tSec reason author true).2.1)]
               ++ (spawnServer cfg (killServer cfg s tMs tSec reason author true).2.1 false
                    mutex validator command spawnPid tSpawn).2.2) := rfl

/-- Claim C6 counterexample: with the one-shot override set to 500 and the
configured restart-spawn delay at 100, a first restart uses the override but
does not consume it — the override is still 500 afterwards, and a second
restart again sleeps 500 ms and never 100 ms, contradicting the claim that
later restarts use the configured delay. -/
theorem restart_override_reused_counterexample :
    (restartServer cfg0 sRun 1000 20 none none ("m1") vOk ("fx") (some 43) 25).1 = none
    ∧ Effect.sleepMs 500
        ∈ (restartServer cfg0 sRun 1000 20 none none ("m1") vOk ("fx") (some 43) 25).2.2
    ∧ ((restartServer cfg0 sRun 1000 20 none none ("m1") vOk ("fx") (some 43)
        25).2.1).restartSpawnDelayOverride = 500
    ∧ Effect.sleepMs 500
        ∈ (restartServer cfg0
            (restartServer cfg0 sRun 1000 20 none none ("m1") vOk ("fx") (some 43) 25).2.1
            2000 30 none none ("m2") vOk ("fx") (some 44) 35).2.2
    ∧ Effect.sleepMs 100
        ∉ (restartServer cfg0
            (restartServer cfg0 sRun 1000 20 none none ("m1") vOk ("fx") (some 43) 25).2.1
            2000 30 none none ("m2") vOk ("fx") (some 44) 35).2.2 := by
  refine ⟨rfl, ?_, rfl, ?_, ?_⟩ <;> decide

/-- Claim C6 (amended): restartServer uses the override (when nonzero) as the
pre-spawn delay but never clears it — the override survives every restart
unchanged, so each later restart with it still set again sleeps for the
override value, not for the configured restart-spawn delay. -/
theorem restart_override_used_not_consumed :
    ∀ (cfg : ServerConfig) (s : FxRunnerState) (tMs tSec : Nat)
      (reason author : Option String) (mutex : String) (validator : ValidatorOutcome)
      (command : String) (spawnPid : Option Nat) (tSpawn : Nat),
      ((restartServer cfg s tMs tSec reason author mutex validator command spawnPid
          tSpawn).2.1).restartSpawnDelayOverride = s.restartSpawnDelayOverride
      ∧ ((killServer cfg s tMs tSec reason author true).1 = none →
          Effect.sleepMs (restartDelayMs cfg s)
            ∈ (restartServer cfg s tMs tSec reason author mutex validator command spawnPid
                tSpawn).2.2) := by
  intro cfg s tMs tSec reason author mutex validator command spawnPid tSpawn
  have hko := killServer_preserves_override cfg s tMs tSec reason author true
  have hdelay : restartDelayMs cfg (killServer cfg s tMs tSec reason author true).2.1
      = restartDelayMs cfg s := by
    unfold restartDelayMs
    rw [hko]
  have hmem : Effect.sleepMs (restartDelayMs cfg s)
      ∈ (killServer cfg s tMs tSec reason author true).2.2
        ++ [Effect.sleepMs (restartDelayMs cfg
              (killServer cfg s tMs tSec reason author true).2.1)]
        ++ (spawnServer cfg (killServer cfg s tMs tSec reason author true).2.1 false
              mutex validator command spawnPid tSpawn).2.2 := by
    rw [hdelay]
    simp
  constructor
  · rw [restartServer_eq]
    cases hk1 : (killServer cfg s tMs tSec reason author true).1 with
    | some e => exact hko
    | none =>
      cases hsp : (spawnServer cfg (killServer cfg s tMs tSec reason author true).2.1 false
          mutex validator command spawnPid tSpawn).1 <;>
        · show ((spawnServer cfg (killServer cfg s tMs tSec reason author true).2.1 false
              mutex validator command spawnPid tSpawn).2.1).restartSpawnDelayOverride
            = s.restartSpawnDelayOverride
          rw [spawnServer_preserves_override, hko]
  · intro hnone
    rw [restartServer_eq, hnone]
    cases hsp : (spawnServer cfg (killServer cfg s tMs tSec reason author true).2.1 false
        mutex validator command spawnPid tSpawn).1 <;> exact hmem

theorem restart_override_used_not_consumed_witness :
    ((restartServer cfg0 sRun 1000 20 none none ("m1") vOk ("fx") (some 43)
        25).2.1).restartSpawnDelayOverride = sRun.restartSpawnDelayOverride
    ∧ Effect.sleepMs (restartDelayMs cfg0 sRun)
        ∈ (restartServer cfg0 sRun 1000 20 none none ("m1") vOk ("fx") (some 43) 25).2.2 :=
  ⟨(restart_override_used_not_consumed cfg0 sRun 1000 20 none none ("m1") vOk ("fx")
      (some 43) 25).1,
   (restart_override_used_not_consumed cfg0 sRun 1000 20 none none ("m1") vOk ("fx")
      (some 43) 25).2 (by decide)⟩

/-! ## Claim C8 -/

theorem killServerPhase1_proceed_state (cfg : ServerConfig) (s : FxRunnerState) (tMs : Nat)
    (author : Option String) (isRestarting : Bool) (s1 : FxRunnerState) (effs : List Effect)
    (sleepLen : Nat)
    (h : killServerPhase1 cfg s tMs author isRestarting = KillPhase1.proceed s1 effs sleepLen) :
    s1 = { s with lastKillRequest := tMs } := by
  unfold killServerPhase1 at h
  split at h
  · exact absurd h (by simp)
  · injection h with h1 h2 h3
    exact h1.symm

theorem setCloseAt_length (h : List HistoryEntry) (i t : Nat) :
    (setCloseAt h i t).length = h.length := by
  induction h generalizing i with
  | nil => rfl
  | cons e rest ih =>
    cases i with
    | zero => rfl
    | succ i2 => simp [setCloseAt, ih i2]

theorem setExitAt_length (h : List HistoryEntry) (i t : Nat) :
    (setExitAt h i t).length = h.length := by
  induction h generalizing i with
  | nil => rfl
  | cons e rest ih =>
    cases i with
    | zero => rfl
    | succ i2 => simp [setExitAt, ih i2]

theorem setCloseAt_spec (h : List HistoryEntry) (i t j : Nat) :
    (setCloseAt h i t)[j]?
      = if j = i then
          Option.map (fun e => { e with timestamps := { e.timestamps with close := some t } }) h[j]?
        else h[j]? := by
  induction h generalizing i j with
  | nil => cases i <;> cases j <;> simp [setCloseAt]
  | cons e rest ih =>
    cases i with
    | zero => cases j with
      | zero => simp [setCloseAt]
      | succ j2 => simp [setCloseAt]
    | succ i2 => cases j with
      | zero => simp [setCloseAt]
      | succ j2 => simp [setCloseAt, ih i2 j2]

theorem setExitAt_spec (h : List HistoryEntry) (i t j : Nat) :
    (setExitAt h i t)[j]?
      = if j = i then
          Option.map (fun e => { e with timestamps := { e.timestamps with exit := some t } }) h[j]?
        else h[j]? := by
  induction h generalizing i j with
  | nil => cases i <;> cases j <;> simp [setExitAt]
  | cons e rest ih =>
    cases i with
    | zero => cases j with
      | zero => simp [setExitAt]
      | succ j2 => simp [setExitAt]
    | succ i2 => cases j with
      | zero => simp [setExitAt]
      | succ j2 => simp [setExitAt, ih i2 j2]

theorem entryMono_refl (a : HistoryEntry) : entryMono a a :=
  ⟨rfl, fun x => x, fun x => x, fun x => x, fun x => x⟩

theorem historyMono_refl (h : List HistoryEntry) : historyMono h h := by
  refine ⟨le_refl _, ?_, ?_⟩
  · intro i a b ha hb
    rw [ha] at hb
    cases hb
    exact entryMono_refl a
  · intro i b hle hb
    rw [List.getElem?_eq_none hle] at hb
    cases hb

theorem historyMono_append (h : List HistoryEntry) (e : HistoryEntry)
    (he : e.timestamps.start.isSome = true) : historyMono h (h ++ [e]) := by
  refine ⟨by simp, ?_, ?_⟩
  · intro i a b ha hb
    have hi : i < h.length := by
      by_contra hge
      rw [List.getElem?_eq_none (Nat.le_of_not_lt hge)] at ha
      cases ha
    rw [List.getElem?_append, if_pos hi] at hb
    rw [ha] at hb
    cases hb
    exact entryMono_refl a
  · intro i b hle hb
    have hlt : i < h.length + 1 := by
      by_contra hge
      rw [List.getElem?_eq_none (by simpa using Nat.le_of_not_lt hge)] at hb
      cases hb
    have hieq : i = h.length := Nat.le_antisymm (Nat.lt_succ_iff.mp hlt) hle
    subst hieq
    rw [List.getElem?_append_right (le_refl _)] at hb
    simp at hb
    rw [← hb]
    exact he

theorem historyMono_setClose (h : List HistoryEntry) (i t : Nat) :
    historyMono h (setCloseAt h i t) := by
  refine ⟨by rw [setCloseAt_length], ?_, ?_⟩
  · intro j a b ha hb
    rw [setCloseAt_spec] at hb
    by_cases hji : j = i
    · rw [if_pos hji, ha] at hb
      cases hb
      exact ⟨rfl, fun x => x, fun x => x, fun x => x, fun _ => rfl⟩
    · rw [if_neg hji, ha] at hb
      cases hb
      exact entryMono_refl a
  · intro j b hle hb
    rw [setCloseAt_spec] at hb
    by_cases hji : j = i
    · subst hji
      rw [if_pos rfl, List.getElem?_eq_none hle] at hb
      simp at hb
    · rw [if_neg hji, List.getElem?_eq_none hle] at hb
      cases hb

theorem historyMono_setExit (h : List HistoryEntry) (i t : Nat) :
    historyMono h (setExitAt h i t) := by
  refine ⟨by rw [setExitAt_length], ?_, ?_⟩
  · intro j a b ha hb
    rw [setExitAt_spec] at hb
    by_cases hji : j = i
    · rw [if_pos hji, ha] at hb
      cases hb
      exact ⟨rfl, fun x => x, fun x => x, fun _ => rfl, fun x => x⟩
    · rw [if_neg hji, ha] at hb
      cases hb
      exact entryMono_refl a
  · intro j b hle hb
    rw [setExitAt_spec] at hb
    by_cases hji : j = i
    · subst hji
      rw [if_pos rfl, List.getElem?_eq_none hle] at hb
      simp at hb
    · rw [if_neg hji, List.getElem?_eq_none hle] at hb
      cases hb

theorem historyMono_stampKill (h : List HistoryEntry) (t : Nat) :
    historyMono h (stampKillOnLast h t) := by
  rcases List.eq_nil_or_concat h with hnil | ⟨init, e, hcat⟩
  · subst hnil
    exact historyMono_refl []
  · rw [List.concat_eq_append] at hcat
    subst hcat
    rw [stampKillOnLast_append]
    refine ⟨by simp, ?_, ?_⟩
    · intro j a b ha hb
      by_cases hj : j < init.length
      · rw [List.getElem?_append, if_pos hj] at ha hb
        rw [ha] at hb
        cases hb
        exact entryMono_refl a
      · have hj2 : j < init.length + 1 := by
          by_contra hge
          rw [List.getElem?_eq_none (by simpa using Nat.le_of_not_lt hge)] at ha
          cases ha
        have hjeq : j = init.length := Nat.le_antisymm (Nat.lt_succ_iff.mp hj2) (Nat.le_of_not_lt hj)
        subst hjeq
        rw [List.getElem?_append_right (le_refl _)] at ha hb
        simp at ha hb
        cases ha
        cases hb
        exact ⟨rfl, fun x => x, fun _ => rfl, fun x => x, fun x => x⟩
    · intro j b hle hb
      rw [List.getElem?_eq_none (by simpa using hle)] at hb
      cases hb

theorem spawnServer_history (cfg : ServerConfig) (s : FxRunnerState) (announce : Bool)
    (mutex : String) (validator : ValidatorOutcome) (command : String)
    (spawnPid : Option Nat) (t : Nat) :
    ((spawnServer cfg s announce mutex validator command spawnPid t).2.1).history = s.history
    ∨ ∃ pid : Nat, ((spawnServer cfg s announce mutex validator command spawnPid t).2.1).history
        = s.history
          ++ [{ pid := toString pid,
                timestamps := { start := some t, kill := none, exit := none, close := none } }] := by
  cases spawnPid with
  | none =>
    refine Or.inl ?_
    unfold spawnServer
    repeat' split
    all_goals first
      | rfl
      | (rename_i heq; cases heq)
  | some pid =>
    unfold spawnServer
    repeat' split
    all_goals first
      | exact Or.inl rfl
      | (rename_i n heq; injection heq with hh; subst hh;
          first
          | exact Or.inr ⟨n, rfl⟩
          | exact Or.inr ⟨pid, rfl⟩)

theorem killServerPhase2_history (s : FxRunnerState) (tSec : Nat) (reasonString : String) :
    ((killServerPhase2 s tSec reasonString).2.1).history = s.history
    ∨ ((killServerPhase2 s tSec reasonString).2.1).history = stampKillOnLast s.history tSec := by
  obtain ⟨child, ov, hist, lkr, host, mtx⟩ := s
  cases child with
  | none => exact Or.inl rfl
  | some pid =>
    by_cases hh : hist.isEmpty
    · refine Or.inl ?_
      unfold killServerPhase2
      simp [hh]
    · refine Or.inr ?_
      unfold killServerPhase2
      simp [hh]

/-- Claim C8: across every operation and event handler of the supervisor,
the history only grows by appending — existing records keep their position and
process identifier, their `start` is never cleared, each of `kill`, `exit`
and `close` only ever transitions from absent to a timestamp — and every
record enters the history with its start timestamp already set. -/
theorem history_monotone_step :
    ∀ (cfg : ServerConfig) (s s' : FxRunnerState), Step cfg s s' →
      historyMono s.history s'.history := by
  intro cfg s s' hstep
  cases hstep with
  | spawn announce mutex validator command spawnPid t ht =>
    rcases spawnServer_history cfg s announce mutex validator command spawnPid t with h | ⟨pid, h⟩
    · rw [h]
      exact historyMono_refl _
    · rw [h]
      exact historyMono_append _ _ rfl
  | killNotice tMs author isRestarting s1 effs sleepLen h =>
    rw [killServerPhase1_proceed_state cfg s tMs author isRestarting s' effs sleepLen h]
    exact historyMono_refl _
  | killTerm tSec reasonString ht =>
    rcases killServerPhase2_history s tSec reasonString with h | h
    · rw [h]
      exact historyMono_refl _
    · rw [h]
      exact historyMono_stampKill _ _
  | closeEvent historyIndex t hi ht =>
    exact historyMono_setClose _ _ _
  | exitEvent historyIndex t hi ht =>
    exact historyMono_setExit _ _ _

theorem history_monotone_step_witness :
    historyMono sLive.history ((handleClose sLive 0 30).history) :=
  history_monotone_step cfg0 sLive (handleClose sLive 0 30)
    (Step.closeEvent sLive 0 30 (by decide) (by decide))

/-! ## Claim C10 -/

theorem startsSet_setClose (h : List HistoryEntry) (i t : Nat) (hs : startsSet h) :
    startsSet (setCloseAt h i t) := by
  intro e he
  obtain ⟨j, hj⟩ := List.mem_iff_getElem?.mp he
  rw [setCloseAt_spec] at hj
  by_cases hji : j = i
  · rw [if_pos hji] at hj
    cases hg : h[j]? with
    | none => rw [hg] at hj; cases hj
    | some a =>
      rw [hg] at hj
      simp at hj
      obtain ⟨n, hn, hp⟩ := hs a (List.mem_iff_getElem?.mpr ⟨j, hg⟩)
      rw [← hj]
      exact ⟨n, hn, hp⟩
  · rw [if_neg hji] at hj
    exact hs e (List.mem_iff_getElem?.mpr ⟨j, hj⟩)

theorem startsSet_setExit (h : List HistoryEntry) (i t : Nat) (hs : startsSet h) :
    startsSet (setExitAt h i t) := by
  intro e he
  obtain ⟨j, hj⟩ := List.mem_iff_getElem?.mp he
  rw [setExitAt_spec] at hj
  by_cases hji : j = i
  · rw [if_pos hji] at hj
    cases hg : h[j]? with
    | none => rw [hg] at hj; cases hj
    | some a =>
      rw [hg] at hj
      simp at hj
      obtain ⟨n, hn, hp⟩ := hs a (List.mem_iff_getElem?.mpr ⟨j, hg⟩)
      rw [← hj]
      exact ⟨n, hn, hp⟩
  · rw [if_neg hji] at hj
    exact hs e (List.mem_iff_getElem?.mpr ⟨j, hj⟩)

theorem startsSet_stampKill (h : List HistoryEntry) (t : Nat) (hs : startsSet h) :
    startsSet (stampKillOnLast h t) := by
  rcases List.eq_nil_or_concat h with hnil | ⟨init, e, hcat⟩
  · subst hnil
    exact hs
  · rw [List.concat_eq_append] at hcat
    subst hcat
    rw [stampKillOnLast_append]
    intro x hx
    rcases List.mem_append.mp hx with h1 | h2
    · exact hs x (List.mem_append.mpr (Or.inl h1))
    · have hx2 : x = { e with timestamps := { e.timestamps with kill := some t } } := by
        simpa using h2
      subst hx2
      obtain ⟨n, hn, hp⟩ := hs e (List.mem_append.mpr (Or.inr (by simp)))
      exact ⟨n, hn, hp⟩

theorem startsSet_append_entry (h : List HistoryEntry) (e : HistoryEntry)
    (hn : ∃ n, e.timestamps.start = some n ∧ 0 < n) (hs : startsSet h) :
    startsSet (h ++ [e]) := by
  intro x hx
  rcases List.mem_append.mp hx with h1 | h2
  · exact hs x h1
  · have hx2 : x = e := by simpa using h2
    subst hx2
    exact hn

theorem startsSet_step (cfg : ServerConfig) (s s' : FxRunnerState) (hstep : Step cfg s s')
    (hs : startsSet s.history) : startsSet s'.history := by
  cases hstep with
  | spawn announce mutex validator command spawnPid t ht =>
    rcases spawnServer_history cfg s announce mutex validator command spawnPid t with h | ⟨pid, h⟩
    · rw [h]
      exact hs
    · rw [h]
      exact startsSet_append_entry _ _ ⟨t, rfl, ht⟩ hs
  | killNotice tMs author isRestarting s1 effs sleepLen h =>
    rw [killServerPhase1_proceed_state cfg s tMs author isRestarting s' effs sleepLen h]
    exact hs
  | killTerm tSec reasonString ht =>
    rcases killServerPhase2_history s tSec reasonString with h | h
    · rw [h]
      exact hs
    · rw [h]
      exact startsSet_stampKill _ _ hs
  | closeEvent historyIndex t hi ht =>
    exact startsSet_setClose _ _ _ hs
  | exitEvent historyIndex t hi ht =>
    exact startsSet_setExit _ _ _ hs

theorem startsSet_reachable (cfg : ServerConfig) (s : FxRunnerState) (h : Reachable cfg s) :
    startsSet s.history := by
  induction h with
  | init => intro e he; cases he
  | step hr hstep ih => exact startsSet_step cfg _ _ hstep ih

theorem getStatus_label_of_startsSet (h : List HistoryEntry) (hs : startsSet h) :
    ∃ l, getStatus h = Except.ok l
      ∧ (l = "not started" ∨ l = "spawned" ∨ l = "killed" ∨ l = "closing" ∨ l = "closed"
         ∨ ∃ rest, l = "kill pending: " ++ rest) := by
  cases hr : h.reverse with
  | nil =>
    have hnil : h = [] := List.reverse_eq_nil_iff.mp hr
    subst hnil
    exact ⟨_, rfl, Or.inl rfl⟩
  | cons curr rest =>
    have hcm : curr ∈ h := by
      have hm : curr ∈ h.reverse := by rw [hr]; exact List.mem_cons_self _ _
      exact List.mem_reverse.mp hm
    obtain ⟨n, hn, hp⟩ := hs curr hcm
    have htr : tsTruthy curr.timestamps.start = true := by
      rw [hn]
      simpa [tsTruthy] using Nat.pos_iff_ne_zero.mp hp
    have hlast : h.getLast? = some curr := by
      rw [← List.head?_reverse, hr]
      rfl
    rw [getStatus_last h curr hlast htr]
    refine ⟨currStatus curr, rfl, ?_⟩
    unfold currStatus
    by_cases hk : tsTruthy curr.timestamps.kill
    · by_cases hpend : (pendingOf curr.timestamps).isEmpty
      · refine Or.inr (Or.inr (Or.inl ?_))
        simp [hk, hpend]
      · refine Or.inr (Or.inr (Or.inr (Or.inr (Or.inr
          ⟨String.intercalate (", ") (pendingOf curr.timestamps), ?_⟩))))
        simp [hk, hpend]
    · by_cases hx : tsTruthy curr.timestamps.exit <;> by_cases hc : tsTruthy curr.timestamps.close
      · refine Or.inr (Or.inr (Or.inr (Or.inr (Or.inl ?_))))
        simp [hk, hx, hc]
      · refine Or.inr (Or.inr (Or.inr (Or.inl ?_)))
        simp [hk, hx, hc]
      · refine Or.inr (Or.inl ?_)
        simp [hk, hx, hc]
      · refine Or.inr (Or.inl ?_)
        simp [hk, hx, hc]

/-- Claim C10: in every supervisor state reachable through the module's
operations and event handlers, every history record has its start timestamp
set (records enter the history only through the spawn-success append), so
getStatus never throws its internal exception and never produces the
spawn-ready or spawn-awaiting labels: only the six labels of the claim are
reachable. -/
theorem getStatus_reachable_labels :
    ∀ (cfg : ServerConfig) (s : FxRunnerState), Reachable cfg s →
      startsSet s.history
      ∧ ∃ l, getStatus s.history = Except.ok l
        ∧ (l = "not started" ∨ l = "spawned" ∨ l = "killed" ∨ l = "closing" ∨ l = "closed"
           ∨ ∃ rest, l = "kill pending: " ++ rest) := by
  intro cfg s h
  have hs := startsSet_reachable cfg s h
  exact ⟨hs, getStatus_label_of_startsSet s.history hs⟩

theorem getStatus_reachable_labels_witness :
    startsSet initialState.history
    ∧ ∃ l, getStatus initialState.history = Except.ok l
      ∧ (l = "not started" ∨ l = "spawned" ∨ l = "killed" ∨ l = "closing" ∨ l = "closed"
         ∨ ∃ rest, l = "kill pending: " ++ rest) :=
  getStatus_reachable_labels cfg0 initialState Reachable.init

end FxRunner
